import Mathlib

/-!
# Verification of the tool-call correlation bridge in `internal/brain/agent.go`

This file gives a shallow embedding of the session handler
`(*ServiceImpl).AgentSession` from `src/internal/brain/agent.go` of the
`focusd-so/brain` repository, and proves properties of the embedding.

The handler owns a correlation table `toolsQueue : map[string]chan
*ToolCallResponse` guarded by a mutex, a background receive loop
(the goroutine at lines 175-207), a per-tool dispatch closure
(lines 108-157), schema normalization for tool declarations
(lines 79-106), and a straight-line session lifecycle
(lines 31-305).

External collaborators (the gRPC stream, `encoding/json`, the Gemini
model, the ADK engine) are modelled as abstract parameters: a `Bool`
for an operation that either succeeds or fails, an abstract decode
function `String → Option α` for `json.Unmarshal`, and a list of
engine events for the engine run.
-/

namespace Brain

/-- Payload of an inbound tool-call-response frame,
`brainv1.AgentSessionRequest_ToolCallResponse` (`request_id`, `output`). -/
structure ToolCallResponse where
  requestId : String
  output : String
deriving DecidableEq, Repr

/-- Fields of `brainv1.ToolDeclaration` read by `AgentSession`:
proto3 string fields, where the empty string is the absent value. -/
structure ToolDecl where
  name : String
  description : String
  inputSchema : String
  outputSchema : String
deriving DecidableEq, Repr

/-- Fields of `brainv1.AgentDeclaration` read by `AgentSession`. -/
structure AgentDecl where
  name : String
  instruction : String
  tools : List ToolDecl
deriving DecidableEq, Repr

/-- Payload of the initiating frame,
`brainv1.AgentSessionRequest_RunRequest`. In proto3 a missing repeated `agents` field and an empty one
are indistinguishable (`[]`), and a missing `user_message` is `""`. -/
structure RunRequest where
  instruction : String
  agents : List AgentDecl
  userMessage : String
deriving DecidableEq, Repr

/-! ## The correlation table

`AgentSession.toolsQueue` maps a request-id to a buffered channel of
capacity one. A channel of capacity one is modelled as a `Slot`:
either empty or holding the one value sent into it. The Go map is
modelled as an association list with Go map semantics (assignment
overwrites, `delete` removes). -/

/-- The contents of one `chan *ToolCallResponse` of capacity 1. -/
inductive Slot
  | empty
  | holding (r : ToolCallResponse)
deriving DecidableEq, Repr

/-- The correlation table `toolsQueue`. -/
abbrev ToolsQueue := List (String × Slot)

/-- Go map lookup `q[id]` (the `ch, ok := a.toolsQueue[id]` form). -/
def qLookup : ToolsQueue → String → Option Slot
  | [], _ => none
  | (k, v) :: rest, id => if k = id then some v else qLookup rest id

/-- Go map assignment `q[id] = v` (overwrites an existing binding). -/
def qInsert : ToolsQueue → String → Slot → ToolsQueue
  | [], id, v => [(id, v)]
  | (k, w) :: rest, id, v =>
      if k = id then (k, v) :: rest else (k, w) :: qInsert rest id v

/-- Go `delete(q, id)`. -/
def qDelete : ToolsQueue → String → ToolsQueue
  | [], _ => []
  | (k, w) :: rest, id =>
      if k = id then qDelete rest id else (k, w) :: qDelete rest id

/-! ## The Receive Loop

The goroutine at `agent.go` lines 175-207. Each iteration performs one
blocking `stream.Receive()` and then acts on the frame. One iteration
is modelled as `receiveStep`: given the current correlation table and
what the receive produced, it either continues with a new table,
blocks sending into an already-full slot, or exits the loop. -/

/-- The frame kinds of `brainv1.AgentSessionRequest`'s `message` oneof,
as scrutinized by the `switch message.Message.(type)` at line 183. The
inner pointer of a `ToolCallResponse_` wrapper may be nil, which the
loop checks at line 186. A `runRequest` frame at this point matches no
case of the switch. -/
inductive InboundFrame
  | toolCallResponse (r : Option ToolCallResponse)
  | sessionEnd (reason : String)
  | runRequest (rr : RunRequest)
deriving DecidableEq, Repr

/-- What one `stream.Receive()` call in the loop produced: a frame, or
an error (including orderly stream close). -/
inductive RecvEvent
  | frame (f : InboundFrame)
  | recvError
deriving DecidableEq, Repr

/-- The observable outcome of one loop iteration. `blockedSend` models
`ch <- toolCallResponse` on a channel whose single buffer slot is
already occupied: the send cannot complete and the loop stalls. -/
inductive LoopStep
  | next (t : ToolsQueue)
  | blockedSend (rid : String)
  | exitLoop
deriving DecidableEq, Repr

/-- One iteration of the receive goroutine (`agent.go` 176-206):

* receive error → `break` (line 178-181);
* tool-call-response with nil inner message → warn and `continue`
  (lines 186-189);
* tool-call-response: lock, look up the request-id, unlock
  (lines 194-196); if found, send the payload into the channel
  (line 199) — the table keeps the entry, only the channel's buffer
  changes; if not found, warn and continue (line 201);
* session-end → log the reason and continue (lines 203-204);
* any other frame matches no case of the switch and is ignored. -/
def receiveStep (t : ToolsQueue) (ev : RecvEvent) : LoopStep :=
  match ev with
  | .recvError => .exitLoop
  | .frame (.toolCallResponse none) => .next t
  | .frame (.toolCallResponse (some r)) =>
      match qLookup t r.requestId with
      | some .empty => .next (qInsert t r.requestId (.holding r))
      | some (.holding _) => .blockedSend r.requestId
      | none => .next t
  | .frame (.sessionEnd _) => .next t
  | .frame (.runRequest _) => .next t

/-! ## The Dispatch closure

The function-tool closure at `agent.go` lines 108-157, run once per
tool invocation the engine decides to make. Its externally visible
effects are operations on the stream and the correlation table, plus
its return value. `json.Marshal` of the input and `stream.Send` are
abstracted to success `Bool`s; `json.Unmarshal` of the response
payload into `map[string]any` is abstracted to `decode : String →
Option α` (it treats the decoded value opaquely, so `α` is arbitrary);
the outcome of the `select` at lines 132-157 is a `DeliveryEvent`. -/

/-- Which arm of the `select` fires: a value is read from the channel
(a Go channel element is a pointer, hence `Option`), or the
`time.After` timer fires first. -/
inductive DeliveryEvent
  | response (r : Option ToolCallResponse)
  | timeout
deriving DecidableEq, Repr

/-- The stream/table operations the closure performs, in order. -/
inductive DispatchOp
  | sendFrame (rid : String)
  | insertEntry (rid : String)
  | deleteEntry (rid : String)
deriving DecidableEq, Repr

/-- The error results of the closure (`agent.go` lines 111, 126, 140,
145, 156). -/
inductive DispatchErr
  | marshalFailed
  | sendFailed
  | nilResponse
  | decodeFailed
  | timedOut
deriving DecidableEq, Repr

/-- The timeout arm's duration, `3 * time.Minute` (line 149), in
seconds (`time.Minute` is 60 seconds). -/
def goSecond : Nat := 1

/-- Go `time.Minute`, in seconds. -/
def goMinute : Nat := 60 * goSecond

/-- The `select`'s timer duration: `3 * time.Minute`. -/
def toolCallTimeout : Nat := 3 * goMinute

/-- The Dispatch closure (`agent.go` 108-157), as the ordered list of
operations it performs on the table and stream, paired with its
result:

* marshal the input (109-112); on failure return, nothing sent;
* generate `requestID` (114) — passed in as `rid`, fresh per call;
* `stream.Send` the tool-call-request frame (117-127); on failure
  return, the table untouched;
* insert a fresh capacity-one channel for `rid` under the lock
  (129-131);
* `select` (132-157): a delivered response first deletes the entry
  under the lock (135-137), then a nil response is an error (139-141),
  a non-decodable output is an error (144-146), otherwise the decoded
  output is returned (148); the timeout arm deletes the entry under
  the lock (151-153) and returns a timeout error (156). -/
def dispatchRun {α : Type} (decode : String → Option α) (rid : String)
    (marshalOk sendOk : Bool) (dv : DeliveryEvent) :
    List DispatchOp × Except DispatchErr α :=
  if marshalOk = false then ([], .error .marshalFailed)
  else if sendOk = false then ([.sendFrame rid], .error .sendFailed)
  else
    match dv with
    | .response none =>
        ([.sendFrame rid, .insertEntry rid, .deleteEntry rid],
         .error .nilResponse)
    | .response (some r) =>
        ([.sendFrame rid, .insertEntry rid, .deleteEntry rid],
         match decode r.output with
         | none => .error .decodeFailed
         | some out => .ok out)
    | .timeout =>
        ([.sendFrame rid, .insertEntry rid, .deleteEntry rid],
         .error .timedOut)

/-- Effect of one dispatch operation on the correlation table.
`insertEntry` is `a.toolsQueue[requestID] = make(chan ..., 1)`
(line 130): a fresh empty slot. `sendFrame` does not touch the table. -/
def applyOp (t : ToolsQueue) : DispatchOp → ToolsQueue
  | .sendFrame _ => t
  | .insertEntry rid => qInsert t rid .empty
  | .deleteEntry rid => qDelete t rid

/-- Table state after a sequence of dispatch operations. -/
def applyOps (t : ToolsQueue) (ops : List DispatchOp) : ToolsQueue :=
  ops.foldl applyOp t

/-! ## Engine events and text aggregation

The run loop at `agent.go` lines 258-274 iterates the engine's event
stream. Each iteration yields an event or an error; on the first error
the handler returns it. An event's `Content` may be nil; a content is
a list of parts; a part carries a text that may be empty. -/

/-- Model of `genai.Part`, restricted to the one field the handler reads. -/
structure Part where
  text : String
deriving DecidableEq, Repr

/-- Model of `genai.Content`, restricted to the parts list. -/
structure Content where
  parts : List Part
deriving DecidableEq, Repr

/-- An engine event: `event.Content` is a nilable pointer. -/
structure Event where
  content : Option Content
deriving DecidableEq, Repr

/-- The inner loop body at lines 266-273: append every non-empty
`part.Text` of the event's content to the accumulator. -/
def eventTextFold (acc : String) (ev : Event) : String :=
  match ev.content with
  | none => acc
  | some c => c.parts.foldl (fun a p => if p.text ≠ "" then a ++ p.text else a) acc

/-- The `for event, err := range r.Run(...)` loop (lines 258-274):
on the first `err ≠ nil` the handler returns that error; otherwise it
accumulates the events' text into `responseText`. -/
def collectText (acc : String) : List (Except String Event) → Except String String
  | [] => .ok acc
  | .error e :: _ => .error e
  | .ok ev :: rest => collectText (eventTextFold acc ev) rest

/-- Concatenation of a list of strings, in order. -/
def concatAll : List String → String
  | [] => ""
  | s :: rest => s ++ concatAll rest

/-- The aggregation in the words of the spec: "aggregate of all
emitted text, concatenated in emission order" — the concatenation of
every non-empty text part of every event content, in order. This is
the spec-side definition, to be compared with `collectText`. -/
def specAggregate (evs : List Event) : String :=
  concatAll ((((evs.filterMap Event.content).flatMap Content.parts).map Part.text).filter (fun s => s ≠ ""))

/-! ## The session controller

The straight-line lifecycle of `AgentSession` (`agent.go` 31-305),
with each external step that can fail abstracted to a `Bool` in
`EnvCaps`. `controllerRun` returns the ordered list of lifecycle
phases that actually completed, paired with the handler's result. A
`Phase.sendRunResponse`/`Phase.sendSessionEndAck` element is present
exactly when that frame was successfully sent on the stream. -/

/-- The lifecycle steps of `AgentSession`, in source order: initial
`stream.Receive` (37), API-key resolution (49-60), `gemini.NewModel`
(62-68), the sub-agent/tool construction loop (70-171), starting the
receive goroutine (175-207), root-agent creation (210-215),
`runner.New` (223-231), session creation (246-254), the engine run
(259-274), sending the run-response frame (279-288), and sending the
session-end-ack frame (292-301). -/
inductive Phase
  | recvInitial
  | resolveApiKey
  | createModel
  | buildDeclarations
  | startReceiveLoop
  | createRootAgent
  | createRunner
  | createSession
  | runEngine
  | sendRunResponse (content : String)
  | sendSessionEndAck (acknowledged : Bool)
deriving DecidableEq, Repr

/-- The handler's error outcomes, one per `return` site. -/
inductive SessErr
  | recvFailed
  | missingRunRequest
  | noApiKey
  | modelFailed
  | buildFailed
  | rootAgentFailed
  | runnerFailed
  | sessionFailed
  | engineFailed (msg : String)
  | sendRunResponseFailed
  | sendAckFailed
deriving DecidableEq, Repr

/-- Outcomes of the external collaborators, abstracted: whether the
initial receive, the env-var API-key lookup, model creation, the
declaration-building loop, root-agent creation, runner creation and
session creation succeed; the engine's event stream; and whether each
of the two terminal `stream.Send`s succeeds. -/
structure EnvCaps where
  recvOk : Bool
  apiKeyFound : Bool
  modelOk : Bool
  buildOk : Bool
  rootOk : Bool
  runnerOk : Bool
  sessOk : Bool
  engineItems : List (Except String Event)
  sendRunResponseOk : Bool
  sendAckOk : Bool
deriving Repr

/-- The `AgentSession` lifecycle (`agent.go` 31-305) as a function of
the initiating frame's run-request (`none` when
`message.GetRunRequest()` is nil, line 43) and the environment:

* initial receive fails → return the error (37-41);
* nil run-request → "missing run request" (43-46), before any other
  work;
* no API key in any of the three env vars → error (57-60);
* model creation failure → error (65-68);
* the construction loop (72-171) runs once per agent; with an empty
  `agents` list its body never executes, so it cannot fail;
* the receive goroutine starts (175);
* root agent, runner, session creation failures → error (216-218,
  228-231, 251-254);
* the engine run loop (259-274) and then the two terminal sends
  (279-301): a failed run-response send returns before the ack is
  attempted. -/
def controllerRun (env : EnvCaps) (init : Option RunRequest) :
    List Phase × Except SessErr Unit :=
  if env.recvOk = false then ([], .error .recvFailed)
  else
    match init with
    | none => ([.recvInitial], .error .missingRunRequest)
    | some rr =>
      if env.apiKeyFound = false then
        ([.recvInitial], .error .noApiKey)
      else if env.modelOk = false then
        ([.recvInitial, .resolveApiKey], .error .modelFailed)
      else if (rr.agents.isEmpty || env.buildOk) = false then
        ([.recvInitial, .resolveApiKey, .createModel], .error .buildFailed)
      else if env.rootOk = false then
        ([.recvInitial, .resolveApiKey, .createModel, .buildDeclarations,
          .startReceiveLoop], .error .rootAgentFailed)
      else if env.runnerOk = false then
        ([.recvInitial, .resolveApiKey, .createModel, .buildDeclarations,
          .startReceiveLoop, .createRootAgent], .error .runnerFailed)
      else if env.sessOk = false then
        ([.recvInitial, .resolveApiKey, .createModel, .buildDeclarations,
          .startReceiveLoop, .createRootAgent, .createRunner], .error .sessionFailed)
      else
        match collectText "" env.engineItems with
        | .error msg =>
            ([.recvInitial, .resolveApiKey, .createModel, .buildDeclarations,
              .startReceiveLoop, .createRootAgent, .createRunner, .createSession,
              .runEngine], .error (.engineFailed msg))
        | .ok text =>
            if env.sendRunResponseOk = false then
              ([.recvInitial, .resolveApiKey, .createModel, .buildDeclarations,
                .startReceiveLoop, .createRootAgent, .createRunner, .createSession,
                .runEngine], .error .sendRunResponseFailed)
            else if env.sendAckOk = false then
              ([.recvInitial, .resolveApiKey, .createModel, .buildDeclarations,
                .startReceiveLoop, .createRootAgent, .createRunner, .createSession,
                .runEngine, .sendRunResponse text], .error .sendAckFailed)
            else
              ([.recvInitial, .resolveApiKey, .createModel, .buildDeclarations,
                .startReceiveLoop, .createRootAgent, .createRunner, .createSession,
                .runEngine, .sendRunResponse text, .sendSessionEndAck true], .ok ())

/-! ## Tool declaration schema normalization

Lines 79-106 build a `functiontool.Config` from each
`ToolDeclaration`. `jsonschema.Schema` is modelled by the one field
the handler inspects, `Properties`; `json.Unmarshal` of a schema
string is the abstract `parse : String → Option GoSchema`, `none`
standing for an unmarshal error. -/

/-- Model of `jsonschema.Schema`, restricted to the `Properties` field (the
handler only tests `len(inputSchema.Properties) > 0`; the property
values are opaque to it, so only the names are kept). -/
structure GoSchema where
  properties : List String
deriving DecidableEq, Repr

/-- The explicit empty schema `&jsonschema.Schema{}` the handler
substitutes (lines 95, 98). -/
def emptyGoSchema : GoSchema := ⟨[]⟩

/-- Model of `functiontool.Config` as populated by lines 80-106. The two schema
fields are nilable pointers; their zero value is `none`. -/
structure FntoolConfig where
  name : String
  description : String
  inputSchema : Option GoSchema
  outputSchema : Option GoSchema
deriving DecidableEq, Repr

/-- Construction of one tool's `functiontool.Config` (lines 80-106):

* `fntoolcfg` starts with only `Name` and `Description` set (80-83),
  both schema pointers nil;
* non-empty input schema string: unmarshal (87-89, error is returned);
  if the parsed schema has at least one property it is used, otherwise
  `&jsonschema.Schema{}` is used instead (92-96); empty input schema
  string: `&jsonschema.Schema{}` (97-99);
* non-empty output schema string: unmarshal (102-104, error is
  returned) and use the parsed schema as is (105); empty output schema
  string: the `OutputSchema` field is never assigned and stays nil. -/
def buildFntoolConfig (parse : String → Option GoSchema) (t : ToolDecl) :
    Except String FntoolConfig :=
  let inputStep : Except String (Option GoSchema) :=
    if t.inputSchema ≠ "" then
      match parse t.inputSchema with
      | none => .error "failed to unmarshal input schema"
      | some s =>
          if s.properties.length > 0 then .ok (some s)
          else .ok (some emptyGoSchema)
    else .ok (some emptyGoSchema)
  match inputStep with
  | .error e => .error e
  | .ok inSchema =>
      if t.outputSchema ≠ "" then
        match parse t.outputSchema with
        | none => .error "Failed to unmarshal output schema"
        | some s =>
            .ok ⟨t.name, t.description, inSchema, some s⟩
      else
        .ok ⟨t.name, t.description, inSchema, none⟩

/-- The set of Dispatch outcomes enumerated by the specification's
three-outcome description: a decoded output is returned, or a timeout
failure, or a nil-response failure. -/
def threeOutcomeResult {α : Type} (res : Except DispatchErr α) : Bool :=
  match res with
  | .ok _ => true
  | .error .timedOut => true
  | .error .nilResponse => true
  | .error _ => false

/-! ## Helper lemmas -/

theorem qLookup_qDelete_self (t : ToolsQueue) (id : String) :
    qLookup (qDelete t id) id = none := by
  induction t with
  | nil => rfl
  | cons kv rest ih =>
      obtain ⟨k, w⟩ := kv
      by_cases h : k = id
      · simpa [qDelete, h] using ih
      · simp [qDelete, h, qLookup, ih]

theorem qLookup_qInsert_self (t : ToolsQueue) (id : String) (v : Slot) :
    qLookup (qInsert t id v) id = some v := by
  induction t with
  | nil => simp [qInsert, qLookup]
  | cons kv rest ih =>
      obtain ⟨k, w⟩ := kv
      by_cases h : k = id
      · simp [qInsert, h, qLookup]
      · simp [qInsert, h, qLookup, ih]

theorem qLookup_qInsert_other (t : ToolsQueue) (id id' : String) (v : Slot)
    (h : id ≠ id') : qLookup (qInsert t id v) id' = qLookup t id' := by
  induction t with
  | nil => simp [qInsert, qLookup, h]
  | cons kv rest ih =>
      obtain ⟨k, w⟩ := kv
      by_cases hk : k = id
      · subst hk; simp [qInsert, qLookup, h]
      · simp [qInsert, hk, qLookup, ih]

theorem concatAll_append (l1 l2 : List String) :
    concatAll (l1 ++ l2) = concatAll l1 ++ concatAll l2 := by
  induction l1 with
  | nil => simp [concatAll, String.empty_append]
  | cons s rest ih => simp [concatAll, ih, String.append_assoc]

theorem foldl_parts_text (parts : List Part) (acc : String) :
    parts.foldl (fun a p => if p.text ≠ "" then a ++ p.text else a) acc
      = acc ++ concatAll ((parts.map Part.text).filter (fun s => s ≠ "")) := by
  induction parts generalizing acc with
  | nil => simp [concatAll, String.append_empty]
  | cons p rest ih =>
      rw [List.foldl_cons, ih, List.map_cons, List.filter_cons]
      by_cases h : p.text = ""
      · simp [h]
      · simp [h, concatAll, String.append_assoc]

theorem eventTextFold_eq (acc : String) (ev : Event) :
    eventTextFold acc ev = acc ++ specAggregate [ev] := by
  cases hc : ev.content with
  | none =>
      simp [eventTextFold, hc, specAggregate, List.filterMap_cons, concatAll,
        String.append_empty]
  | some c =>
      simp only [eventTextFold, hc]
      rw [foldl_parts_text]
      simp [specAggregate, List.filterMap_cons, hc]

theorem specAggregate_cons (ev : Event) (rest : List Event) :
    specAggregate (ev :: rest) = specAggregate [ev] ++ specAggregate rest := by
  cases hc : ev.content with
  | none =>
      simp [specAggregate, List.filterMap_cons, hc, concatAll, String.empty_append]
  | some c =>
      simp [specAggregate, List.filterMap_cons, hc, List.filter_append,
        List.map_append, concatAll_append, String.append_empty]

theorem collectText_map_ok (evs : List Event) (acc : String) :
    collectText acc (evs.map Except.ok) = .ok (acc ++ specAggregate evs) := by
  induction evs generalizing acc with
  | nil => simp [collectText, specAggregate, List.filterMap_nil, concatAll,
      String.append_empty]
  | cons ev rest ih =>
      rw [specAggregate_cons]
      simp only [List.map_cons]
      rw [collectText, ih, eventTextFold_eq, String.append_assoc]

theorem specAggregate_all_none (evs : List Event)
    (h : ∀ ev ∈ evs, ev.content = none) : specAggregate evs = "" := by
  have hfm : evs.filterMap Event.content = [] := by
    induction evs with
    | nil => rfl
    | cons ev rest ih =>
        rw [List.filterMap_cons, h ev (List.mem_cons_self ev rest)]
        exact ih (fun e he => h e (List.mem_cons_of_mem ev he))
  simp [specAggregate, hfm, concatAll]

/-! ## Claim C1 -/

/-- C1: evidence of the divergence. The claim states the PendingCall
entry is inserted before the tool-call-request frame is sent, so that
at no point the frame is on the wire while the table lacks the entry.
In the Dispatch closure the operations happen in the opposite order:
the trace is send (line 117), insert (line 130), delete; after the
first operation alone the frame is already sent while a table that
starts without the request-id still has no entry for it. -/
theorem c1_send_precedes_insert {α : Type} (decode : String → Option α)
    (rid : String) (dv : DeliveryEvent) :
    (dispatchRun decode rid true true dv).1 =
      [.sendFrame rid, .insertEntry rid, .deleteEntry rid] ∧
    (dispatchRun decode rid true true dv).1.take 1 = [.sendFrame rid] ∧
    qLookup (applyOps [] ((dispatchRun decode rid true true dv).1.take 1)) rid = none := by
  cases dv with
  | timeout => exact ⟨rfl, rfl, rfl⟩
  | response r =>
      cases r with
      | none => exact ⟨rfl, rfl, rfl⟩
      | some r0 => exact ⟨rfl, rfl, rfl⟩

/-! ## Claim C3 -/

/-- C3: counterexample. A delivered response whose `output` payload
does not decode (for example the payload is the single character x,
which is not valid JSON, so the `json.Unmarshal` at line 144 fails —
modelled by a decoder returning `none` at it) makes Dispatch resolve
with the decode failure of line 145, which is none of the claim's
three outcomes: no decoded output is returned, and the failure is
neither the timeout failure nor the nil-response failure. -/
theorem c3_counterexample :
    (dispatchRun (fun _ => (none : Option Unit)) "id0" true true
        (.response (some ⟨"id0", "x"⟩))).2 = .error .decodeFailed ∧
    threeOutcomeResult
        (dispatchRun (fun _ => (none : Option Unit)) "id0" true true
          (.response (some ⟨"id0", "x"⟩))).2 = false := by
  exact ⟨rfl, rfl⟩

/-- C3 (amended): every Dispatch call that marshals its input and
sends its request frame resolves exactly once, via exactly one of
four mutually exclusive outcomes, each determined by the delivery
event: (1) a response that decodes — its decoded output is returned;
(2) the timeout elapses first — a timeout failure; (3) the delivered
response is nil — a failure distinct from timeout; (4) the delivered
response's output fails to decode — a decode failure distinct from
the others. In every one of these outcomes the closure has removed
its own table entry, and the timeout bound is 3 minutes = 180
seconds. -/
theorem c3_four_outcomes {α : Type} (decode : String → Option α)
    (rid : String) (dv : DeliveryEvent) (t0 : ToolsQueue) :
    ((dispatchRun decode rid true true dv).2 = .error .timedOut ↔ dv = .timeout) ∧
    ((dispatchRun decode rid true true dv).2 = .error .nilResponse ↔
      dv = .response none) ∧
    ((dispatchRun decode rid true true dv).2 = .error .decodeFailed ↔
      ∃ r, dv = .response (some r) ∧ decode r.output = none) ∧
    ((∃ out, (dispatchRun decode rid true true dv).2 = .ok out) ↔
      ∃ r out, dv = .response (some r) ∧ decode r.output = some out) ∧
    (dispatchRun decode rid true true dv).2 ≠ .error .sendFailed ∧
    (dispatchRun decode rid true true dv).2 ≠ .error .marshalFailed ∧
    qLookup (applyOps t0 (dispatchRun decode rid true true dv).1) rid = none ∧
    toolCallTimeout = 180 * goSecond := by
  have htime : toolCallTimeout = 180 * goSecond := by
    simp [toolCallTimeout, goMinute, goSecond]
  cases dv with
  | timeout =>
      refine ⟨by simp [dispatchRun], by simp [dispatchRun], by simp [dispatchRun],
        by simp [dispatchRun], by simp [dispatchRun], by simp [dispatchRun],
        ?_, htime⟩
      simp [dispatchRun, applyOps, applyOp, qLookup_qDelete_self]
  | response r =>
      cases r with
      | none =>
          refine ⟨by simp [dispatchRun], by simp [dispatchRun], by simp [dispatchRun],
            by simp [dispatchRun], by simp [dispatchRun], by simp [dispatchRun],
            ?_, htime⟩
          simp [dispatchRun, applyOps, applyOp, qLookup_qDelete_self]
      | some r0 =>
          cases hdec : decode r0.output with
          | none =>
              refine ⟨by simp [dispatchRun, hdec], by simp [dispatchRun, hdec],
                by simp [dispatchRun, hdec], by simp [dispatchRun, hdec],
                by simp [dispatchRun, hdec], by simp [dispatchRun, hdec],
                ?_, htime⟩
              simp [dispatchRun, applyOps, applyOp, qLookup_qDelete_self]
          | some out =>
              refine ⟨by simp [dispatchRun, hdec], by simp [dispatchRun, hdec],
                by simp [dispatchRun, hdec], by simp [dispatchRun, hdec],
                by simp [dispatchRun, hdec], by simp [dispatchRun, hdec],
                ?_, htime⟩
              simp [dispatchRun, applyOps, applyOp, qLookup_qDelete_self]

/-- C3 witness: the amended theorem evaluated at the timeout event
with a concrete decoder. -/
theorem c3_four_outcomes_witness :
    (dispatchRun (fun _ => some (0 : Nat)) "id1" true true .timeout).2 =
      .error .timedOut ∧
    toolCallTimeout = 180 * goSecond := by
  have h := c3_four_outcomes (fun _ => some (0 : Nat)) "id1" .timeout []
  exact ⟨h.1.mpr rfl, h.2.2.2.2.2.2.2⟩

/-! ## Claim C4 -/

/-- C4: counterexample. With the table holding an entry for the
request-id with an empty slot, the receive loop's delivery of a
matching tool-call-response updates the slot but leaves the entry in
the table: the loop performs no `delete` (the only `delete` calls are
in the Dispatch closure, lines 136 and 152), so after delivery by the
loop the table still contains that request-id — contradicting the
claim that the loop removes the entry itself. -/
theorem c4_counterexample :
    receiveStep [("id1", .empty)]
        (.frame (.toolCallResponse (some ⟨"id1", "out"⟩))) =
      .next [("id1", .holding ⟨"id1", "out"⟩)] ∧
    qLookup [("id1", Slot.holding ⟨"id1", "out"⟩)] "id1" =
      some (.holding ⟨"id1", "out"⟩) := by
  exact ⟨by decide, by decide⟩

/-- C4 (amended): when the Receive Loop gets a tool-call-response
frame whose request-id is found in the Correlation Table with an
empty slot, it delivers the payload into that PendingCall's slot and
continues; the entry is not removed by the loop — after delivery the
table still contains the request-id, now with the occupied slot, and
removal happens only on the Dispatch side. -/
theorem c4_delivery_keeps_entry (t : ToolsQueue) (r : ToolCallResponse)
    (h : qLookup t r.requestId = some .empty) :
    receiveStep t (.frame (.toolCallResponse (some r))) =
      .next (qInsert t r.requestId (.holding r)) ∧
    qLookup (qInsert t r.requestId (.holding r)) r.requestId =
      some (.holding r) := by
  exact ⟨by simp [receiveStep, h], qLookup_qInsert_self t r.requestId (.holding r)⟩

/-- C4 witness: the amended theorem at a concrete table and frame. -/
theorem c4_delivery_keeps_entry_witness :
    receiveStep [("id2", .empty)]
        (.frame (.toolCallResponse (some ⟨"id2", "ok"⟩))) =
      .next (qInsert [("id2", .empty)] "id2" (.holding ⟨"id2", "ok"⟩)) ∧
    qLookup (qInsert [("id2", Slot.empty)] "id2" (.holding ⟨"id2", "ok"⟩)) "id2" =
      some (.holding ⟨"id2", "ok"⟩) :=
  c4_delivery_keeps_entry [("id2", .empty)] ⟨"id2", "ok"⟩ (by decide)

/-! ## Claim C5 -/

/-- C5: counterexample. A second response frame for the same
request-id, arriving after the loop delivered the first response into
the capacity-one channel but before Dispatch consumed it and deleted
the entry, finds the id still in the table with a full slot: the
channel send at line 199 cannot complete and the loop blocks — and if
Dispatch's timeout arm then deletes the entry (lines 151-153) nothing
will ever drain the channel, so every other pending call starves.
This contradicts the claim that a second response frame for an
already-resolved request-id never blocks the loop and affects no
other pending call. -/
theorem c5_counterexample :
    receiveStep [("id1", .holding ⟨"id1", "first"⟩)]
        (.frame (.toolCallResponse (some ⟨"id1", "second"⟩))) =
      .blockedSend "id1" := by
  decide

/-- C5 (amended): a tool-call-response frame whose request-id is
absent from the Correlation Table — unknown, or already removed by
its Dispatch call after resolution — is dropped silently by the
Receive Loop: the iteration continues with the table unchanged, so it
neither blocks nor exits the loop, and no other pending call's entry
or slot is touched. But for a request-id still present in the table
with an already-occupied slot, the loop's channel send blocks instead
of dropping the duplicate. -/
theorem c5_drop_or_block (t : ToolsQueue) (r : ToolCallResponse) :
    (qLookup t r.requestId = none →
      receiveStep t (.frame (.toolCallResponse (some r))) = .next t) ∧
    (∀ r0, qLookup t r.requestId = some (.holding r0) →
      receiveStep t (.frame (.toolCallResponse (some r))) =
        .blockedSend r.requestId) := by
  constructor
  · intro h
    simp [receiveStep, h]
  · intro r0 h
    simp [receiveStep, h]

/-- C5 witness: the amended theorem at concrete tables — a response
for the absent id idB is dropped with the pending call idA untouched,
and a duplicate for the occupied id idC blocks. -/
theorem c5_drop_or_block_witness :
    receiveStep [("idA", .empty)]
        (.frame (.toolCallResponse (some ⟨"idB", "late"⟩))) =
      .next [("idA", .empty)] ∧
    receiveStep [("idC", .holding ⟨"idC", "one"⟩)]
        (.frame (.toolCallResponse (some ⟨"idC", "two"⟩))) =
      .blockedSend "idC" := by
  refine ⟨(c5_drop_or_block [("idA", .empty)] ⟨"idB", "late"⟩).1 (by decide), ?_⟩
  exact (c5_drop_or_block [("idC", .holding ⟨"idC", "one"⟩)] ⟨"idC", "two"⟩).2
    ⟨"idC", "one"⟩ (by decide)

/-! ## Claim C8 -/

/-- C8: counterexample. Observing a session-end frame does not stop
the loop: the `SessionEnd` case of the switch only logs the reason
(lines 203-204) and the loop runs its next iteration — the step is a
continue, not an exit. -/
theorem c8_counterexample :
    receiveStep [] (.frame (.sessionEnd "done")) = .next [] := by
  decide

/-- C8 (amended): the Receive Loop exits exactly when the stream's
receive yields an error (including orderly close); a session-end
frame is only logged and the loop keeps reading, with the table
unchanged. -/
theorem c8_exit_only_on_recv_error (t : ToolsQueue) (ev : RecvEvent) :
    (receiveStep t ev = .exitLoop ↔ ev = .recvError) ∧
    (∀ reason, receiveStep t (.frame (.sessionEnd reason)) = .next t) := by
  constructor
  · constructor
    · intro h
      cases ev with
      | recvError => rfl
      | frame f =>
          exfalso
          cases f with
          | toolCallResponse r =>
              cases r with
              | none => exact absurd h (by simp [receiveStep])
              | some r0 =>
                  simp only [receiveStep] at h
                  rcases hq : qLookup t r0.requestId with _ | s
                  · rw [hq] at h; exact LoopStep.noConfusion h
                  · rw [hq] at h
                    cases s with
                    | empty => exact LoopStep.noConfusion h
                    | holding r1 => exact LoopStep.noConfusion h
          | sessionEnd reason => exact absurd h (by simp [receiveStep])
          | runRequest rr => exact absurd h (by simp [receiveStep])
    · intro h
      subst h
      rfl
  · intro reason
    rfl

/-- C8 witness: the amended theorem at a concrete table and events. -/
theorem c8_exit_only_on_recv_error_witness :
    receiveStep [] .recvError = .exitLoop ∧
    receiveStep [] (.frame (.sessionEnd "bye")) = .next [] := by
  refine ⟨(c8_exit_only_on_recv_error [] .recvError).1.mpr rfl, ?_⟩
  exact (c8_exit_only_on_recv_error [] (.frame (.sessionEnd "bye"))).2 "bye"

/-! ## Claim C10 -/

/-- C10: after a Dispatch call that reached the select resolves — by
decoded output, timeout failure, nil-response failure or decode
failure — the table no longer contains an entry for its request-id
(both select arms delete the entry, lines 136 and 152), whatever the
table held before; and when sending the tool-call-request frame
fails, Dispatch returns the send error with an operation trace that
contains only the send, so no entry was ever inserted and the table
is left exactly as it was. -/
theorem c10_table_clean_after_dispatch {α : Type} (decode : String → Option α)
    (rid : String) (dv : DeliveryEvent) (t0 : ToolsQueue) :
    qLookup (applyOps t0 (dispatchRun decode rid true true dv).1) rid = none ∧
    (dispatchRun decode rid true false dv).2 = .error .sendFailed ∧
    (dispatchRun decode rid true false dv).1 = [.sendFrame rid] ∧
    applyOps t0 (dispatchRun decode rid true false dv).1 = t0 := by
  refine ⟨?_, ?_, ?_, ?_⟩
  · cases dv with
    | timeout => simp [dispatchRun, applyOps, applyOp, qLookup_qDelete_self]
    | response r =>
        cases r with
        | none => simp [dispatchRun, applyOps, applyOp, qLookup_qDelete_self]
        | some r0 => simp [dispatchRun, applyOps, applyOp, qLookup_qDelete_self]
  · simp [dispatchRun]
  · simp [dispatchRun]
  · simp [dispatchRun, applyOps, applyOp]

/-! ## Claim C2 -/

/-- C2: counterexample. The only validation of the initiating frame
is that a run-request is present (line 43). A run-request with an
empty agents list and an empty user_message passes it: with every
external step succeeding, the session proceeds — the receive loop is
started and the engine is invoked — and the run completes
successfully instead of failing with a protocol error. -/
theorem c2_counterexample :
    controllerRun ⟨true, true, true, true, true, true, true, [], true, true⟩
        (some ⟨"instr", [], ""⟩) =
      ([.recvInitial, .resolveApiKey, .createModel, .buildDeclarations,
        .startReceiveLoop, .createRootAgent, .createRunner, .createSession,
        .runEngine, .sendRunResponse "", .sendSessionEndAck true], .ok ()) ∧
    Phase.startReceiveLoop ∈
      [Phase.recvInitial, .resolveApiKey, .createModel, .buildDeclarations,
       .startReceiveLoop, .createRootAgent, .createRunner, .createSession,
       .runEngine, .sendRunResponse "", .sendSessionEndAck true] ∧
    Phase.runEngine ∈
      [Phase.recvInitial, .resolveApiKey, .createModel, .buildDeclarations,
       .startReceiveLoop, .createRootAgent, .createRunner, .createSession,
       .runEngine, .sendRunResponse "", .sendSessionEndAck true] := by
  refine ⟨rfl, by simp, by simp⟩

/-- C2 (amended): the session fails immediately with the protocol
error — before the Receive Loop goroutine is started and before the
engine is invoked — exactly when the initiating frame carries no
run-request at all; its phase trace stops at the initial receive, so
neither the loop start nor the engine run is reached. A run-request
with an empty agents list or a missing user_message is not validated
and the session proceeds. -/
theorem c2_nil_run_request_rejected (env : EnvCaps) (h : env.recvOk = true) :
    controllerRun env none = ([.recvInitial], .error .missingRunRequest) ∧
    Phase.startReceiveLoop ∉ (controllerRun env none).1 ∧
    Phase.runEngine ∉ (controllerRun env none).1 := by
  have heq : controllerRun env none = ([.recvInitial], .error .missingRunRequest) := by
    simp [controllerRun, h]
  refine ⟨heq, ?_, ?_⟩ <;> simp [heq]

/-- C2 witness: the amended theorem at a concrete environment. -/
theorem c2_nil_run_request_rejected_witness :
    controllerRun ⟨true, true, true, true, true, true, true, [], true, true⟩ none =
      ([.recvInitial], .error .missingRunRequest) :=
  (c2_nil_run_request_rejected
    ⟨true, true, true, true, true, true, true, [], true, true⟩ rfl).1

/-! ## Claim C6 -/

/-- C6: once the session reaches the engine run, the terminal frames
behave as claimed. On engine success with both sends succeeding, the
phase trace ends with exactly one run-response send followed by
exactly one session-end-ack send, in that order, and the handler
returns successfully. If the run-response send fails, the handler
returns that error and the trace shows no run-response and no ack
frame was sent. On engine failure the handler returns the engine's
error and the trace stops at the engine run: neither frame is sent. -/
theorem c6_terminal_frames (env : EnvCaps) (rr : RunRequest)
    (hrecv : env.recvOk = true) (hkey : env.apiKeyFound = true)
    (hmodel : env.modelOk = true)
    (hbuild : (rr.agents.isEmpty || env.buildOk) = true)
    (hroot : env.rootOk = true) (hrunner : env.runnerOk = true)
    (hsess : env.sessOk = true) :
    (∀ text, collectText "" env.engineItems = .ok text →
      (env.sendRunResponseOk = true → env.sendAckOk = true →
        controllerRun env (some rr) =
          ([.recvInitial, .resolveApiKey, .createModel, .buildDeclarations,
            .startReceiveLoop, .createRootAgent, .createRunner, .createSession,
            .runEngine, .sendRunResponse text, .sendSessionEndAck true], .ok ())) ∧
      (env.sendRunResponseOk = false →
        controllerRun env (some rr) =
          ([.recvInitial, .resolveApiKey, .createModel, .buildDeclarations,
            .startReceiveLoop, .createRootAgent, .createRunner, .createSession,
            .runEngine], .error .sendRunResponseFailed))) ∧
    (∀ msg, collectText "" env.engineItems = .error msg →
      controllerRun env (some rr) =
        ([.recvInitial, .resolveApiKey, .createModel, .buildDeclarations,
          .startReceiveLoop, .createRootAgent, .createRunner, .createSession,
          .runEngine], .error (.engineFailed msg))) := by
  constructor
  · intro text htext
    constructor
    · intro hrr hack
      simp [controllerRun, hrecv, hkey, hmodel, hbuild, hroot, hrunner, hsess,
        htext, hrr, hack]
    · intro hrr
      simp [controllerRun, hrecv, hkey, hmodel, hbuild, hroot, hrunner, hsess,
        htext, hrr]
  · intro msg hmsg
    simp [controllerRun, hrecv, hkey, hmodel, hbuild, hroot, hrunner, hsess, hmsg]

/-- C6 witness: the theorem at a concrete all-success environment. -/
theorem c6_terminal_frames_witness :
    controllerRun ⟨true, true, true, true, true, true, true, [], true, true⟩
        (some ⟨"instr", [], "hello"⟩) =
      ([.recvInitial, .resolveApiKey, .createModel, .buildDeclarations,
        .startReceiveLoop, .createRootAgent, .createRunner, .createSession,
        .runEngine, .sendRunResponse "", .sendSessionEndAck true], .ok ()) := by
  have h := c6_terminal_frames
    ⟨true, true, true, true, true, true, true, [], true, true⟩
    ⟨"instr", [], "hello"⟩ rfl rfl rfl rfl rfl rfl rfl
  exact (h.1 "" rfl).1 rfl rfl

/-! ## Claim C9 -/

/-- C9: on an error-free engine run the aggregation loop produces
exactly the concatenation, in emission order, of every non-empty text
part of every event content (`specAggregate`); that text is the
content of the one run-response frame the session sends; and when no
event carries a content the aggregate is the empty string. -/
theorem c9_response_text (rr : RunRequest) (evs : List Event) :
    collectText "" (evs.map Except.ok) = .ok (specAggregate evs) ∧
    controllerRun
        ⟨true, true, true, true, true, true, true, evs.map Except.ok, true, true⟩
        (some rr) =
      ([.recvInitial, .resolveApiKey, .createModel, .buildDeclarations,
        .startReceiveLoop, .createRootAgent, .createRunner, .createSession,
        .runEngine, .sendRunResponse (specAggregate evs), .sendSessionEndAck true],
       .ok ()) ∧
    ((∀ ev ∈ evs, ev.content = none) → specAggregate evs = "") := by
  have hcol : collectText "" (evs.map Except.ok) = .ok (specAggregate evs) := by
    rw [collectText_map_ok, String.empty_append]
  refine ⟨hcol, ?_, specAggregate_all_none evs⟩
  simp [controllerRun, hcol, Bool.or_true]

/-- C9 witness: the theorem at a concrete event list. -/
theorem c9_response_text_witness :
    collectText "" ([(⟨none⟩ : Event)].map Except.ok) =
      .ok (specAggregate [⟨none⟩]) ∧
    specAggregate [(⟨none⟩ : Event)] = "" := by
  have h := c9_response_text ⟨"i", [], "u"⟩ [⟨none⟩]
  refine ⟨h.1, h.2.2 ?_⟩
  intro ev hev
  have h1 := List.mem_singleton.mp hev
  subst h1
  rfl

/-! ## Claim C7 -/

/-- C7: counterexample. A tool declaration with both schema strings
absent yields a config whose input schema is the explicit empty
schema but whose output schema is nil: lines 100-106 only assign
`OutputSchema` when the declared string is non-empty, so the absent
output schema is not normalized and the constructed declaration does
carry a null schema. -/
theorem c7_counterexample :
    buildFntoolConfig (fun _ => none) ⟨"echo", "echoes", "", ""⟩ =
      .ok ⟨"echo", "echoes", some emptyGoSchema, none⟩ ∧
    (FntoolConfig.outputSchema ⟨"echo", "echoes", some emptyGoSchema, none⟩) =
      none := by
  exact ⟨rfl, rfl⟩

/-- C7 (amended): in every successfully constructed tool config the
input schema is never null — an absent input schema, or one that
parses to a schema with no properties, is normalized to the explicit
empty-object schema, and otherwise the parsed schema is used — while
the output schema is set to the parsed schema exactly when a
non-empty output schema string was declared and remains null when the
output schema is absent. -/
theorem c7_schema_normalization (parse : String → Option GoSchema)
    (t : ToolDecl) (cfg : FntoolConfig)
    (h : buildFntoolConfig parse t = .ok cfg) :
    cfg.inputSchema ≠ none ∧
    (t.inputSchema = "" → cfg.inputSchema = some emptyGoSchema) ∧
    (∀ s, t.inputSchema ≠ "" → parse t.inputSchema = some s →
      (s.properties = [] → cfg.inputSchema = some emptyGoSchema) ∧
      (s.properties ≠ [] → cfg.inputSchema = some s)) ∧
    (t.outputSchema = "" → cfg.outputSchema = none) ∧
    (∀ s, t.outputSchema ≠ "" → parse t.outputSchema = some s →
      cfg.outputSchema = some s) := by
  by_cases hin : t.inputSchema = ""
  · by_cases hout : t.outputSchema = ""
    · simp [buildFntoolConfig, hin, hout] at h
      subst h
      refine ⟨by simp, fun _ => rfl, ?_, fun _ => rfl, ?_⟩
      · intro s hs
        exact absurd hin hs
      · intro s hs
        exact absurd hout hs
    · cases hpo : parse t.outputSchema with
      | none => simp [buildFntoolConfig, hin, hout, hpo] at h
      | some so =>
          simp [buildFntoolConfig, hin, hout, hpo] at h
          subst h
          refine ⟨by simp, fun _ => rfl, ?_, ?_, ?_⟩
          · intro s hs
            exact absurd hin hs
          · intro hh
            exact absurd hh hout
          · intro s _ hs
            injection hs with h2
            subst h2
            rfl
  · cases hpi : parse t.inputSchema with
    | none => simp [buildFntoolConfig, hin, hpi] at h
    | some si =>
        by_cases hp : si.properties.length > 0
        · by_cases hout : t.outputSchema = ""
          · simp [buildFntoolConfig, hin, hpi, hp, hout] at h
            subst h
            refine ⟨by simp, ?_, ?_, fun _ => rfl, ?_⟩
            · intro hh
              exact absurd hh hin
            · intro s _ hs
              injection hs with h2
              subst h2
              constructor
              · intro hnil
                rw [hnil] at hp
                simp at hp
              · intro _
                rfl
            · intro s hs
              exact absurd hout hs
          · cases hpo : parse t.outputSchema with
            | none => simp [buildFntoolConfig, hin, hpi, hp, hout, hpo] at h
            | some so =>
                simp [buildFntoolConfig, hin, hpi, hp, hout, hpo] at h
                subst h
                refine ⟨by simp, ?_, ?_, ?_, ?_⟩
                · intro hh
                  exact absurd hh hin
                · intro s _ hs
                  injection hs with h2
                  subst h2
                  constructor
                  · intro hnil
                    rw [hnil] at hp
                    simp at hp
                  · intro _
                    rfl
                · intro hh
                  exact absurd hh hout
                · intro s _ hs
                  injection hs with h2
                  subst h2
                  rfl
        · have hnil : si.properties = [] :=
            List.length_eq_zero.mp (Nat.eq_zero_of_not_pos hp)
          by_cases hout : t.outputSchema = ""
          · simp [buildFntoolConfig, hin, hpi, hp, hout] at h
            subst h
            refine ⟨by simp, ?_, ?_, fun _ => rfl, ?_⟩
            · intro hh
              exact absurd hh hin
            · intro s _ hs
              injection hs with h2
              subst h2
              exact ⟨fun _ => rfl, fun hne => absurd hnil hne⟩
            · intro s hs
              exact absurd hout hs
          · cases hpo : parse t.outputSchema with
            | none => simp [buildFntoolConfig, hin, hpi, hp, hout, hpo] at h
            | some so =>
                simp [buildFntoolConfig, hin, hpi, hp, hout, hpo] at h
                subst h
                refine ⟨by simp, ?_, ?_, ?_, ?_⟩
                · intro hh
                  exact absurd hh hin
                · intro s _ hs
                  injection hs with h2
                  subst h2
                  exact ⟨fun _ => rfl, fun hne => absurd hnil hne⟩
                · intro hh
                  exact absurd hh hout
                · intro s _ hs
                  injection hs with h2
                  subst h2
                  rfl

/-- C7 witness: the amended theorem applied to a fully-declared tool
with a parsed one-property schema. -/
theorem c7_schema_normalization_witness :
    (FntoolConfig.inputSchema ⟨"n", "d", some ⟨["a"]⟩, some ⟨["a"]⟩⟩) =
      some ⟨["a"]⟩ :=
  ((c7_schema_normalization (fun _ => some ⟨["a"]⟩) ⟨"n", "d", "sch", "osch"⟩
    ⟨"n", "d", some ⟨["a"]⟩, some ⟨["a"]⟩⟩ rfl).2.2.1 ⟨["a"]⟩ (by decide) rfl).2
    (by decide)

end Brain
